import Mathlib

/-!
Verification of `src/visualization/visualize_police_incidents_map.py`
(dallas-crime-map).

The Python script is shallowly embedded below.  Conventions:

* A pandas `DataFrame` row becomes a `Row` record; the first (unnamed)
  column of the CSV is the aggregation measure and is modelled as a `Nat`
  field `count` (the spec calls it a non-negative integer).
* The nullable `Zip Code` column becomes `Option Nat`.
* Python strings become `List Char`; `str.upper` becomes mapping
  `Char.toUpper`; the regex alternation `"|".join(property_keywords)` is
  substring containment of one of the (meta-character-free) keywords.
* Python floats become `ℚ`; `int(x)` on a non-negative value becomes
  `Int.toNat ∘ Int.floor`.
* The coordinate cache (a Python dict with int keys) becomes an
  association list `List (Nat × ℚ × ℚ)`; dict key membership is
  `cacheLookup · · |>.isSome`.
* `pandas.groupby` sorts group keys; the claims checked here are
  insensitive to the order of groups, so grouping uses `List.dedup`
  of the key list, each group's aggregate being the sum over the rows
  with that key.
-/

/-- One incident row: measure column (first CSV column), nullable
`Zip Code`, free-text `Type of Incident`, `Year of Incident`. -/
structure Row where
  count : Nat
  zip : Option Nat
  incidentType : List Char
  year : Int
deriving DecidableEq, Repr

/-- In-memory coordinate cache: zip code → (lat, lon), as in the Python
dict produced by `create_zip_coordinates_cache` / `load_coordinates_cache`. -/
abbrev Cache := List (Nat × (ℚ × ℚ))

/-- Dict lookup in the cache (`zip_coordinates[x]` / `x in zip_coordinates.keys()`). -/
def cacheLookup (c : Cache) (k : Nat) : Option (ℚ × ℚ) :=
  (c.find? (fun p => p.1 = k)).map Prod.snd

/-- Byte-wise `str.upper()` (incident types are ASCII). -/
def upperChars (s : List Char) : List Char := s.map Char.toUpper

/-- Does `n` occur at the start of `h`? (helper for substring containment). -/
def startsWithCh : List Char → List Char → Bool
  | [], _ => true
  | _ :: _, [] => false
  | a :: n, b :: h => a = b && startsWithCh n h

/-- Does `n` occur as a contiguous substring of `h`?  Models Python's
`str.contains` with a regex that is a plain alternation of literals. -/
def containsSub (n : List Char) : List Char → Bool
  | [] => startsWithCh n []
  | b :: h => startsWithCh n (b :: h) || containsSub n h

/-- The `property_keywords` list from `filter_for_burglary_property_incidents`. -/
def property_keywords : List (List Char) :=
  [ "BURGLARY".toList, "THEFT".toList, "ROBBERY".toList, "STOLEN".toList,
    "BREAKING".toList, "ENTERING".toList, "LARCENY".toList,
    "EMBEZZLEMENT".toList, "AUTO THEFT".toList, "CRIMINAL MISCHIEF".toList,
    "VANDALISM".toList, "SHOPLIFTING".toList ]

/-- The boolean mask of `filter_for_burglary_property_incidents`: the
upper-cased incident type contains one of the keywords. -/
def is_property_incident (t : List Char) : Bool :=
  property_keywords.any (fun k => containsSub k (upperChars t))

/-- `filter_for_burglary_property_incidents`, row-filter part.  (The
Python function also stashes the original type in a new column and
overwrites `Type of Incident` with the constant `"Property Crime"`;
here the original type is simply kept in `incidentType` and the constant
category appears in the aggregated output.) -/
def filter_for_burglary_property_incidents (rows : List Row) : List Row :=
  rows.filter (fun r => is_property_incident r.incidentType)

/-- Rows surviving all three filters of `prepare_map_data`:
year == 2024, property keyword match, non-null zip present in the cache. -/
def cleanRows (rows : List Row) (cache : Cache) : List Row :=
  (filter_for_burglary_property_incidents
      (rows.filter (fun r => r.year = 2024))).filter
    (fun r => match r.zip with
      | none => false
      | some z => (cacheLookup cache z).isSome)

/-- Sum of the measure column over a list of rows. -/
def sumCounts (rows : List Row) : Nat := (rows.map Row.count).sum

/-- The rows of a given zip-code group. -/
def rowsWithZip (rows : List Row) (z : Nat) : List Row :=
  rows.filter (fun r => r.zip = some z)

/-- The distinct zip codes occurring in a list of rows (group keys). -/
def zipsOf (rows : List Row) : List Nat :=
  (rows.filterMap Row.zip).dedup

/-- `incident_counts` for one zip: original incident type → summed count
(the groupby on `["Zip Code", "Original_Incident_Type"]` followed by the
per-zip dict construction). -/
def breakdownFor (rows : List Row) (z : Nat) : List (List Char × Nat) :=
  ((rowsWithZip rows z).map Row.incidentType).dedup.map
    (fun t => (t, sumCounts ((rowsWithZip rows z).filter
        (fun r => r.incidentType = t))))

/-- One row of the `grouped` DataFrame returned by `prepare_map_data`. -/
structure AggRecord where
  zip : Nat
  category : List Char
  total : Nat
  breakdown : List (List Char × Nat)
  lat : ℚ
  lon : ℚ
deriving DecidableEq, Repr

/-- `prepare_map_data`: filter (year, property keywords, cached zip),
group by zip (the `Type of Incident` column is the constant
`"Property Crime"` after filtering, so the groupby on
`["Zip Code", "Type of Incident"]` groups by zip), sum counts, attach
the per-type breakdown and the coordinates from the cache. -/
def prepare_map_data (rows : List Row) (cache : Cache) : List AggRecord :=
  let clean := cleanRows rows cache
  (zipsOf clean).map (fun z =>
    { zip := z
      category := "Property Crime".toList
      total := sumCounts (rowsWithZip clean z)
      breakdown := breakdownFor clean z
      lat := ((cacheLookup cache z).getD (0, 0)).1
      lon := ((cacheLookup cache z).getD (0, 0)).2 })

/-- The three input rows of the end-to-end scenario. -/
def rowsC1 : List Row :=
  [ ⟨3, some 75201, "BURGLARY".toList, 2024⟩,
    ⟨2, some 75201, "SHOPLIFTING".toList, 2024⟩,
    ⟨5, some 75201, "ASSAULT".toList, 2024⟩ ]

/-- The one-entry cache of the end-to-end scenario. -/
def cacheC1 : Cache := [(75201, (3278/100, -9680/100))]

/-- C1: the end-to-end scenario.  Rows (75201, BURGLARY, 2024, 3),
(75201, SHOPLIFTING, 2024, 2), (75201, ASSAULT, 2024, 5) with the cache
`{75201 ↦ (32.78, -96.80)}` aggregate to exactly one record:
location 75201, category "Property Crime", total 5, breakdown
{BURGLARY ↦ 3, SHOPLIFTING ↦ 2} — the ASSAULT row matches no property
keyword and is excluded. -/
theorem C1_end_to_end_scenario :
    (prepare_map_data rowsC1 cacheC1).map
        (fun r => (r.zip, r.category, r.total, r.breakdown)) =
      [ (75201, "Property Crime".toList, 5,
         [("BURGLARY".toList, 3), ("SHOPLIFTING".toList, 2)]) ] := by decide

/-- `scale_marker_size` from `create_incident_map` (the closure captures
`min_count` and `max_count`; the bounds 5 and 30 and the equal-range
result 15 are hard-coded in the source). -/
def scale_marker_size (min_count max_count count : ℚ) : ℚ :=
  if max_count = min_count then 15
  else 5 + (count - min_count) / (max_count - min_count) * 25

/-- Summing a pointwise `if k = t then c + f t else f t` over a
duplicate-free key list containing `k` adds `c` exactly once. -/
theorem sum_map_ite_add {K : Type} [DecidableEq K] (f : K → Nat) (k : K) (c : Nat)
    (ks : List K) (hk : k ∈ ks) (hnd : ks.Nodup) :
    (ks.map (fun t => if k = t then c + f t else f t)).sum = c + (ks.map f).sum := by
  induction ks with
  | nil => cases hk
  | cons a ks ih =>
    rcases List.nodup_cons.mp hnd with ⟨ha, hnd'⟩
    by_cases hka : k = a
    · subst hka
      have hmap : ks.map (fun t => if k = t then c + f t else f t) = ks.map f := by
        apply List.map_congr_left
        intro t ht
        have hne : k ≠ t := by
          intro h
          subst h
          exact ha ht
        simp [hne]
      simp [hmap]
      omega
    · have hk' : k ∈ ks := (List.mem_cons.mp hk).resolve_left hka
      simp [if_neg hka, ih hk' hnd']
      omega

/-- Fiberwise sums over a duplicate-free covering key list add up to the
total sum (the grouping invariant behind `groupby(...).sum()`). -/
theorem sum_fiber {α K : Type} [DecidableEq K] (κ : α → K) (w : α → Nat)
    (l : List α) : ∀ ks : List K, ks.Nodup → (∀ x ∈ l, κ x ∈ ks) →
    (ks.map (fun t => ((l.filter (fun x => κ x = t)).map w).sum)).sum
      = (l.map w).sum := by
  induction l with
  | nil =>
    intro ks _ _
    simp
  | cons x l ih =>
    intro ks hnd hcov
    have hx : κ x ∈ ks := hcov x (List.mem_cons_self x l)
    have hcov' : ∀ y ∈ l, κ y ∈ ks := fun y hy => hcov y (List.mem_cons_of_mem x hy)
    have hmap : ks.map (fun t => (((x :: l).filter (fun y => κ y = t)).map w).sum)
        = ks.map (fun t =>
            if κ x = t then w x + ((l.filter (fun y => κ y = t)).map w).sum
            else ((l.filter (fun y => κ y = t)).map w).sum) := by
      apply List.map_congr_left
      intro t _
      by_cases h : κ x = t
      · simp [List.filter_cons, h]
      · simp [List.filter_cons, h]
    rw [hmap,
      sum_map_ite_add (fun t => ((l.filter (fun y => κ y = t)).map w).sum)
        (κ x) (w x) ks hx hnd,
      ih ks hnd hcov']
    simp

/-- The per-zip breakdown sums back to the per-zip total. -/
theorem breakdown_sum (rows : List Row) (z : Nat) :
    ((breakdownFor rows z).map Prod.snd).sum = sumCounts (rowsWithZip rows z) := by
  unfold breakdownFor sumCounts
  rw [List.map_map]
  exact sum_fiber Row.incidentType Row.count (rowsWithZip rows z)
    (((rowsWithZip rows z).map Row.incidentType).dedup)
    (List.nodup_dedup _)
    (fun x hx => List.mem_dedup.mpr (List.mem_map_of_mem Row.incidentType hx))

/-- C2: for every AggregatedRecord produced by the aggregation pipeline,
the values of its SubtypeBreakdown sum to its total_count. -/
theorem C2_breakdown_sums_to_total (rows : List Row) (cache : Cache)
    (r : AggRecord) (hr : r ∈ prepare_map_data rows cache) :
    (r.breakdown.map Prod.snd).sum = r.total := by
  rcases List.mem_map.mp hr with ⟨z, hz, rfl⟩
  exact breakdown_sum (cleanRows rows cache) z

def rowsC2wit : List Row :=
  [ ⟨3, some 75201, "BURGLARY".toList, 2024⟩,
    ⟨2, some 75201, "SHOPLIFTING".toList, 2024⟩,
    ⟨5, some 75201, "ASSAULT".toList, 2024⟩ ]

def cacheC2wit : Cache := [(75201, (32, -96))]

def recC2wit : AggRecord :=
  { zip := 75201
    category := "Property Crime".toList
    total := 5
    breakdown := [("BURGLARY".toList, 3), ("SHOPLIFTING".toList, 2)]
    lat := 32
    lon := -96 }

theorem C2_breakdown_sums_to_total_witness :
    (recC2wit.breakdown.map Prod.snd).sum = recC2wit.total :=
  C2_breakdown_sums_to_total rowsC2wit cacheC2wit recC2wit (by decide)

/-- Hexadecimal digits as produced by Python's `%x` formatting. -/
def hexDigitChars : List Char := "0123456789abcdef".toList

/-- `%02x` of a byte value (0–255). -/
def hexByte (n : Nat) : List Char :=
  [hexDigitChars.getD (n / 16) '0', hexDigitChars.getD (n % 16) '0']

/-- `"#%02x%02x%02x" % (r, g, b)`. -/
def rgbToHexChars (r g b : Nat) : List Char :=
  '#' :: (hexByte r ++ hexByte g ++ hexByte b)

/-- Python float `x % 1.0` (for `x ≥ 0`, the fractional part), used for
the hue. -/
def mod_one (x : ℚ) : ℚ := x - ⌊x⌋

/-- `colorsys.hsv_to_rgb` over exact rationals.  (`int(h * 6.0)` is `⌊h * 6⌋`
since the hue argument is non-negative here.) -/
def hsv_to_rgb (h s v : ℚ) : ℚ × ℚ × ℚ :=
  if s = 0 then (v, v, v)
  else
    let i : ℤ := ⌊h * 6⌋
    let f : ℚ := h * 6 - (i : ℚ)
    let p : ℚ := v * (1 - s)
    let q : ℚ := v * (1 - s * f)
    let t : ℚ := v * (1 - s * (1 - f))
    let j : ℤ := i % 6
    if j = 0 then (v, t, p)
    else if j = 1 then (q, v, p)
    else if j = 2 then (p, v, t)
    else if j = 3 then (p, q, v)
    else if j = 4 then (t, p, v)
    else (v, p, q)

/-- `int(c * 255)` applied to each HSV→RGB channel, then hex-formatted
(the channels are non-negative, so truncation is `Int.floor`). -/
def rgb_to_hex (c : ℚ × ℚ × ℚ) : List Char :=
  rgbToHexChars (⌊c.1 * 255⌋).toNat (⌊c.2.1 * 255⌋).toNat (⌊c.2.2 * 255⌋).toNat

/-- The `golden_ratio` literal of `generate_colors_for_incident_types`. -/
def golden_ratio : ℚ := 618033988749895 / 1000000000000000

/-- The loop body of `generate_colors_for_incident_types` for index `i`:
hue `(i * golden_ratio) % 1.0`, saturation `0.7 + (i % 3) * 0.1`,
value `0.8 + (i % 2) * 0.1`, converted HSV→RGB→hex. -/
def colorForIndex (i : Nat) : List Char :=
  rgb_to_hex (hsv_to_rgb (mod_one ((i : ℚ) * golden_ratio))
    (7/10 + ((i % 3 : Nat) : ℚ) * (1/10)) (8/10 + ((i % 2 : Nat) : ℚ) * (1/10)))

/-- The fixed gray `"#808080"` assigned beyond `max_colors`. -/
def grayHex : List Char := "#808080".toList

/-- `generate_colors_for_incident_types`: association list from incident
type to hex color, read left to right like the Python dict.  The first
`max_colors` types (in input order) get `colorForIndex` of their index,
the remaining ones gray.  (The caller passes the distinct values of
`pandas.unique`, so keys are distinct and the association list is the
dict.) -/
def generate_colors_for_incident_types (incident_types : List (List Char))
    (max_colors : Nat) : List (List Char × List Char) :=
  ((incident_types.take max_colors).enum.map (fun p => (p.2, colorForIndex p.1)))
    ++ (incident_types.drop max_colors).map (fun t => (t, grayHex))

/-- Python dict lookup (`colors.get`) for the color table. -/
def dictLookup {V : Type} (d : List (List Char × V)) (k : List Char) : Option V :=
  (d.find? (fun p => p.1 = k)).map Prod.snd

/-- `find?` on the enumerated, color-annotated prefix finds exactly the
entry of the looked-up (duplicate-free) key. -/
theorem find_in_enum_map {V : Type} (g : Nat → V) :
    ∀ (l : List (List Char)) (n : Nat), l.Nodup →
      ∀ (i : Nat) (hi : i < l.length),
      ((l.enumFrom n).map (fun p => (p.2, g p.1))).find?
          (fun p => p.1 = l.get ⟨i, hi⟩) = some (l.get ⟨i, hi⟩, g (n + i)) := by
  intro l
  induction l with
  | nil =>
    intro n _ i hi
    exact absurd hi (by simp)
  | cons a l ih =>
    intro n hnd i hi
    rcases List.nodup_cons.mp hnd with ⟨ha, hnd'⟩
    cases i with
    | zero =>
      have h0 : (a :: l).get ⟨0, hi⟩ = a := rfl
      rw [h0, List.enumFrom, List.map_cons, List.find?_cons_of_pos _ (by simp)]
      rfl
    | succ i =>
      have hi' : i < l.length := Nat.lt_of_succ_lt_succ hi
      have hget : (a :: l).get ⟨i + 1, hi⟩ = l.get ⟨i, hi'⟩ := rfl
      have hne : ¬ (a = l.get ⟨i, hi'⟩) := by
        intro h
        exact ha (h ▸ List.get_mem l i hi')
      rw [hget, List.enumFrom, List.map_cons,
        List.find?_cons_of_neg _ (by simpa using hne), ih (n + 1) hnd' i hi']
      have : n + 1 + i = n + (i + 1) := by omega
      rw [this]

/-- `find?` on the constant-gray suffix finds the looked-up key with the
gray color. -/
theorem find_in_const_map {V : Type} (c : V) :
    ∀ (l : List (List Char)) (k : List Char), k ∈ l →
      (l.map (fun t => (t, c))).find? (fun p => p.1 = k) = some (k, c) := by
  intro l
  induction l with
  | nil =>
    intro k hk
    cases hk
  | cons a l ih =>
    intro k hk
    by_cases hak : a = k
    · subst hak
      rw [List.map_cons, List.find?_cons_of_pos _ (by simp)]
    · have hk' : k ∈ l := (List.mem_cons.mp hk).resolve_left (fun h => hak h.symm)
      rw [List.map_cons, List.find?_cons_of_neg _ (by simpa using hak), ih k hk']

/-- The second component of an enumerated entry is a member of the list. -/
theorem snd_mem_of_mem_enumFrom :
    ∀ (l : List (List Char)) (n : Nat) (p : Nat × List Char),
      p ∈ l.enumFrom n → p.2 ∈ l := by
  intro l
  induction l with
  | nil =>
    intro n p hp
    cases hp
  | cons a l ih =>
    intro n p hp
    rw [List.enumFrom] at hp
    rcases List.mem_cons.mp hp with h | h
    · subst h
      exact List.mem_cons_self a l
    · exact List.mem_cons_of_mem a (ih (n + 1) p h)

/-- C8: `generate_colors_for_incident_types` with `max_colors = 50`
assigns to the category at index `i < 50` the hex color computed from
HSV with hue `(i * golden_ratio) % 1.0`, saturation `0.7 + (i % 3) * 0.1`
and value `0.8 + (i % 2) * 0.1` (`colorForIndex i`), and the fixed gray
`"#808080"` to every category at index `≥ 50`.  The mapping is a pure
function of the ordered input list, so the same list yields the identical
mapping on every call. -/
theorem C8_color_assignment (types : List (List Char)) (hnd : types.Nodup)
    (i : Nat) (hi : i < types.length) :
    dictLookup (generate_colors_for_incident_types types 50) (types.get ⟨i, hi⟩)
      = some (if i < 50 then colorForIndex i else grayHex) := by
  unfold dictLookup generate_colors_for_incident_types
  rw [List.find?_append]
  by_cases h50 : i < 50
  · have hnd50 : (types.take 50).Nodup := (List.take_sublist 50 types).nodup hnd
    have hi50 : i < (types.take 50).length := by
      rw [List.length_take]
      exact lt_min h50 hi
    have hget : types.get ⟨i, hi⟩ = (types.take 50).get ⟨i, hi50⟩ :=
      List.get_take types hi h50
    have henum : (types.take 50).enum = (types.take 50).enumFrom 0 := rfl
    rw [hget, henum, find_in_enum_map colorForIndex (types.take 50) 0 hnd50 i hi50]
    simp [h50]
  · have hdroplen : i - 50 < (types.drop 50).length := by
      rw [List.length_drop]
      omega
    have hk : types.get ⟨i, hi⟩ ∈ types.drop 50 := by
      have h' : 50 + (i - 50) < types.length := by omega
      have hgd := List.get_drop types (i := 50) (j := i - 50) h'
      have heq : (⟨50 + (i - 50), h'⟩ : Fin types.length) = ⟨i, hi⟩ := by
        apply Fin.ext
        simp
        omega
      rw [heq] at hgd
      rw [hgd]
      exact List.get_mem _ _ _
    have hsplit : (types.take 50) ++ (types.drop 50) = types :=
      List.take_append_drop 50 types
    have hndapp : ((types.take 50) ++ (types.drop 50)).Nodup := by
      rw [hsplit]
      exact hnd
    have hdisj := (List.nodup_append.mp hndapp).2.2
    have hknot : types.get ⟨i, hi⟩ ∉ types.take 50 := fun hmem => hdisj hmem hk
    have hnone : (((types.take 50).enum).map
          (fun p => (p.2, colorForIndex p.1))).find?
        (fun p => p.1 = types.get ⟨i, hi⟩) = none := by
      rw [List.find?_eq_none]
      intro x hx
      rcases List.mem_map.mp hx with ⟨p, hp, rfl⟩
      simp only [decide_eq_true_eq]
      intro hcontra
      apply hknot
      rw [← hcontra]
      exact snd_mem_of_mem_enumFrom (types.take 50) 0 p hp
    rw [hnone, find_in_const_map grayHex (types.drop 50) (types.get ⟨i, hi⟩) hk]
    simp [h50]

/-- 51 distinct two-letter category names. -/
def typesC8wit : List (List Char) :=
  (List.range 51).map (fun n => [Char.ofNat (65 + n / 10), Char.ofNat (65 + n % 10)])

theorem C8_color_assignment_witness :
    dictLookup (generate_colors_for_incident_types typesC8wit 50)
        (typesC8wit.get ⟨50, by decide⟩)
      = some (if 50 < 50 then colorForIndex 50 else grayHex) :=
  C8_color_assignment typesC8wit (by decide) 50 (by decide)

/-- C3 (counterexample): with `min_count = max_count = 5` the source
returns the constant 15, not the midpoint 17.5 of the bounds [5, 30]. -/
theorem C3_midpoint_counterexample :
    scale_marker_size 5 5 10 = 15 ∧ ¬ scale_marker_size 5 5 10 = 35 / 2 := by
  constructor
  · simp [scale_marker_size]
  · simp [scale_marker_size]
    norm_num

/-- C3 (amended): `scale_marker_size` returns the constant 15 whenever
`max_count = min_count` (so it never divides by zero), and otherwise
interpolates linearly with `scale(5, 5, 30) = 5` and
`scale(30, 5, 30) = 30`. -/
theorem C3_scaler_behaviour :
    (∀ mn c : ℚ, scale_marker_size mn mn c = 15) ∧
    scale_marker_size 5 30 5 = 5 ∧ scale_marker_size 5 30 30 = 30 := by
  refine ⟨fun mn c => by simp [scale_marker_size], ?_, ?_⟩
  · norm_num [scale_marker_size]
  · norm_num [scale_marker_size]

/-- C10: for `min_count ≤ count ≤ max_count` the marker size stays in
the closed interval [5, 30], including the equal-range case. -/
theorem C10_marker_size_bounds (mn mx c : ℚ) (h1 : mn ≤ c) (h2 : c ≤ mx) :
    5 ≤ scale_marker_size mn mx c ∧ scale_marker_size mn mx c ≤ 30 := by
  unfold scale_marker_size
  by_cases h : mx = mn
  · simp [h]
    norm_num
  · have hlt : mn < mx := lt_of_le_of_ne (h1.trans h2) (Ne.symm h)
    have hpos : 0 < mx - mn := sub_pos.mpr hlt
    have ht0 : 0 ≤ (c - mn) / (mx - mn) := div_nonneg (by linarith) hpos.le
    have ht1 : (c - mn) / (mx - mn) ≤ 1 := by
      rw [div_le_one hpos]
      linarith
    rw [if_neg h]
    constructor
    · nlinarith
    · nlinarith

theorem C10_marker_size_bounds_witness :
    5 ≤ scale_marker_size 5 30 10 ∧ scale_marker_size 5 30 10 ≤ 30 :=
  C10_marker_size_bounds 5 30 10 (by decide) (by decide)

/-- C4: a location key absent from the coordinate cache never appears in
the aggregated output. -/
theorem C4_uncached_key_dropped (rows : List Row) (cache : Cache) (z : Nat)
    (hz : ∀ p ∈ cache, p.1 ≠ z) :
    ∀ r ∈ prepare_map_data rows cache, r.zip ≠ z := by
  intro r hr
  rcases List.mem_map.mp hr with ⟨z', hz', rfl⟩
  intro hrz
  have hz'mem : z' ∈ (cleanRows rows cache).filterMap Row.zip :=
    List.mem_dedup.mp hz'
  rcases List.mem_filterMap.mp hz'mem with ⟨row, hrow, hrowzip⟩
  have hpred := (List.mem_filter.mp hrow).2
  simp only [hrowzip] at hpred
  rcases Option.isSome_iff_exists.mp (by simpa using hpred) with ⟨v, hv⟩
  unfold cacheLookup at hv
  rcases Option.map_eq_some'.mp hv with ⟨p, hfind, hpv⟩
  have hmem := List.mem_of_find?_eq_some hfind
  have hkey : p.1 = z' := by simpa using List.find?_some hfind
  have hz'z : z' = z := hrz
  exact hz p hmem (by rw [hkey, hz'z])

def rowsC4wit : List Row :=
  [ ⟨1, some 75201, "BURGLARY".toList, 2024⟩,
    ⟨1, some 99999, "BURGLARY".toList, 2024⟩ ]

def cacheC4wit : Cache := [(75201, (32, -96))]

def recC4wit : AggRecord :=
  { zip := 75201
    category := "Property Crime".toList
    total := 1
    breakdown := [("BURGLARY".toList, 1)]
    lat := 32
    lon := -96 }

theorem C4_uncached_key_dropped_witness : recC4wit.zip ≠ 99999 :=
  C4_uncached_key_dropped rowsC4wit cacheC4wit 99999 (by decide) recC4wit (by decide)

/-- One HTTP attempt's outcome as seen by `geocode_zip_code`: a transport
or parse failure (anything the `except` clause catches), or the parsed
JSON array with each element's `lat`/`lon` already read off. -/
abbrev GeoOutcome := Except Unit (List (ℚ × ℚ))

/-- `geocode_zip_code`, abstracted over the network: `transport` is the
stream of outcomes successive `requests.get` calls would produce.  The
function consumes exactly one outcome — there is no retry inside it — and
returns the remaining stream.  A failure or an empty result array yields
`none`; otherwise the first element's coordinates.  (The politeness delay
`time.sleep(delay)` is real time and does not affect the value; an empty
stream models the degenerate run where no request can be made at all,
which the `except` clause also turns into `None`.) -/
def geocode_zip_code (transport : List GeoOutcome) :
    Option (ℚ × ℚ) × List GeoOutcome :=
  match transport with
  | [] => (none, [])
  | r :: rest =>
    (match r with
     | Except.error _ => none
     | Except.ok [] => none
     | Except.ok (c :: _) => some c, rest)

/-- C6: `geocode_zip_code` consumes exactly one transport outcome per
invocation (no retry within the component), returns `none` on any
transport/parse failure and on an empty result, and otherwise the first
result's coordinates — it never propagates the failure. -/
theorem C6_geocode_total_no_retry (r : GeoOutcome) (rest : List GeoOutcome) :
    (geocode_zip_code (r :: rest)).2 = rest ∧
    (∀ e, r = Except.error e → (geocode_zip_code (r :: rest)).1 = none) ∧
    (r = Except.ok [] → (geocode_zip_code (r :: rest)).1 = none) ∧
    (∀ c cs, r = Except.ok (c :: cs) → (geocode_zip_code (r :: rest)).1 = some c) := by
  refine ⟨rfl, fun e he => ?_, fun he => ?_, fun c cs he => ?_⟩ <;> subst he <;> rfl

theorem C6_geocode_total_no_retry_witness :
    (geocode_zip_code [Except.error ()]).1 = none ∧
    (geocode_zip_code [Except.error ()]).2 = [] :=
  ⟨(C6_geocode_total_no_retry (Except.error ()) []).2.1 () rfl,
   (C6_geocode_total_no_retry (Except.error ()) []).1⟩

/-- `create_zip_coordinates_cache`: geocode every distinct non-null zip
code of the data (the geocoder is an oracle `Nat → Option (ℚ × ℚ)`
standing for `geocode_zip_code` on the live network); successes are
inserted into the fresh dict, failures skipped.  Note the function starts
from an empty dict and takes no existing cache. -/
def create_zip_coordinates_cache (zips : List (Option Nat))
    (geocoder : Nat → Option (ℚ × ℚ)) : Cache :=
  (zips.filterMap id).dedup.filterMap
    (fun z => (geocoder z).map (fun c => (z, c)))

/-- Outcome of the cache phase of `main` (lines 378–398). -/
structure FillResult where
  cache : Option Cache
  geocodeCalls : List Nat
  saveCount : Nat
deriving Repr

/-- The cache phase of `main`: if a cache was loaded it is used as-is and
no geocoding or saving happens; otherwise, if the user confirms, every
distinct non-null zip code is geocoded and the result is saved once —
but only when it is non-empty (`if zip_coordinates:` is Python
truthiness), an empty result aborting the run unsaved.  `geocodeCalls`
records the keys handed to the geocoder and `saveCount` the number of
`save_coordinates_cache` calls. -/
def main_cache_phase (loaded : Option Cache) (confirm : Bool)
    (zips : List (Option Nat)) (geocoder : Nat → Option (ℚ × ℚ)) : FillResult :=
  match loaded with
  | some c => ⟨some c, [], 0⟩
  | none =>
    if confirm then
      let filled := create_zip_coordinates_cache zips geocoder
      if filled = [] then ⟨none, (zips.filterMap id).dedup, 0⟩
      else ⟨some filled, (zips.filterMap id).dedup, 1⟩
    else ⟨none, [], 0⟩

/-- A cache that already resolves 75201. -/
def loadedC7 : Cache := [(75201, (32, -96))]

/-- Zip codes 75201 (cached in `loadedC7`) and 99999 (not cached). -/
def zipsC7 : List (Option Nat) := [some 75201, some 99999]

/-- C7 (counterexample): with a loaded cache containing only 75201 and
data containing the uncached zip 99999, the set
`distinct(location_keys) − keys(cache)` is `{99999}`, yet the code makes
no geocoding call at all — the fill pass simply does not run when a cache
was loaded, so the resolved set is not `distinct − keys(cache)`. -/
theorem C7_unresolved_set_counterexample :
    (main_cache_phase (some loadedC7) true zipsC7
        (fun z => some (1, 1))).geocodeCalls = [] ∧
    99999 ∈ (zipsC7.filterMap id).dedup ∧
    (∀ p ∈ loadedC7, p.1 ≠ 99999) :=
  ⟨rfl, by decide, by decide⟩

/-- C7 (amended): a fill pass runs only when no cache was loaded (and the
user confirmed); it then geocodes exactly the distinct non-null location
keys, each at most once — with the cache empty at that point this is
`distinct(location_keys) − keys(cache)`.  When a cache was loaded, no
geocoding call is made at all, even for keys absent from it; in
particular the geocoder is never invoked on a cached key. -/
theorem C7_no_redundant_geocoding (loaded : Option Cache) (confirm : Bool)
    (zips : List (Option Nat)) (geocoder : Nat → Option (ℚ × ℚ)) :
    ((main_cache_phase loaded confirm zips geocoder).geocodeCalls
      = match loaded with
        | some _ => []
        | none => if confirm then (zips.filterMap id).dedup else []) ∧
    (main_cache_phase loaded confirm zips geocoder).geocodeCalls.Nodup ∧
    (∀ c, loaded = some c → ∀ k v, (k, v) ∈ c →
      k ∉ (main_cache_phase loaded confirm zips geocoder).geocodeCalls) := by
  cases loaded with
  | some c =>
    exact ⟨rfl, List.nodup_nil, fun c' hc' k v hkv h => List.not_mem_nil k h⟩
  | none =>
    cases confirm with
    | false => exact ⟨rfl, List.nodup_nil, fun c' hc' => by cases hc'⟩
    | true =>
      have hcalls : (main_cache_phase none true zips geocoder).geocodeCalls
          = (zips.filterMap id).dedup := by
        unfold main_cache_phase
        by_cases hf : create_zip_coordinates_cache zips geocoder = []
        · simp [hf]
        · simp [hf]
      refine ⟨hcalls, ?_, fun c' hc' => by cases hc'⟩
      rw [hcalls]
      exact List.nodup_dedup _

theorem C7_no_redundant_geocoding_witness :
    75201 ∉ (main_cache_phase (some loadedC7) true zipsC7
        (fun z => some (1, 1))).geocodeCalls :=
  (C7_no_redundant_geocoding (some loadedC7) true zipsC7
      (fun z => some (1, 1))).2.2 loadedC7 rfl 75201 (32, -96) (by decide)

/-- C5 (counterexample): when every resolution fails the filled dict is
empty, `if zip_coordinates:` is false, and `save_coordinates_cache` runs
zero times — not once "regardless of how many resolutions failed". -/
theorem C5_save_skipped_counterexample :
    (main_cache_phase none true [some 75201] (fun z => none)).saveCount = 0 ∧
    ¬ (main_cache_phase none true [some 75201] (fun z => none)).saveCount = 1 :=
  ⟨rfl, by decide⟩

/-- C5 (amended): provided at least one key resolved (the filled cache is
non-empty), the cache phase saves exactly once, hands exactly the filled
cache onward, and every successful resolution of a distinct key is
preserved in it (partial success is kept). -/
theorem C5_saved_once_when_nonempty (zips : List (Option Nat))
    (geocoder : Nat → Option (ℚ × ℚ))
    (hne : create_zip_coordinates_cache zips geocoder ≠ []) :
    (main_cache_phase none true zips geocoder).saveCount = 1 ∧
    (main_cache_phase none true zips geocoder).cache
      = some (create_zip_coordinates_cache zips geocoder) ∧
    ∀ z c, z ∈ (zips.filterMap id).dedup → geocoder z = some c →
      (z, c) ∈ create_zip_coordinates_cache zips geocoder := by
  refine ⟨?_, ?_, fun z c hz hc => ?_⟩
  · unfold main_cache_phase
    simp [hne]
  · unfold main_cache_phase
    simp [hne]
  · unfold create_zip_coordinates_cache
    refine List.mem_filterMap.mpr ⟨z, hz, ?_⟩
    rw [hc]
    rfl

theorem C5_saved_once_when_nonempty_witness :
    (main_cache_phase none true [some 75201]
        (fun z => some (32, -96))).saveCount = 1 :=
  (C5_saved_once_when_nonempty [some 75201] (fun z => some (32, -96))
    (by decide)).1

/-- `save_coordinates_cache`'s on-disk form: `json.dump` writes each
integer key as its decimal string (modelled as the base-10 digit
sequence) and each value as the `[lat, lon]` pair. -/
def save_coordinates_cache (coordinates : Cache) :
    List (List Nat × (ℚ × ℚ)) :=
  coordinates.map (fun p => (Nat.digits 10 p.1, p.2))

/-- `load_coordinates_cache`'s key normalization,
`{int(k): v for k, v in coordinates.items()}`: each serialized decimal
key is parsed back to its integer. -/
def load_coordinates_cache (d : List (List Nat × (ℚ × ℚ))) : Cache :=
  d.map (fun p => (Nat.ofDigits 10 p.1, p.2))

/-- C9: saving the integer-keyed cache and loading it back yields the
same mapping — keys are normalized back to the canonical integer through
the string representation, values round-trip unchanged. -/
theorem C9_cache_roundtrip (c : Cache) :
    load_coordinates_cache (save_coordinates_cache c) = c := by
  unfold load_coordinates_cache save_coordinates_cache
  rw [List.map_map]
  have hpt : c.map ((fun p : List Nat × (ℚ × ℚ) => (Nat.ofDigits 10 p.1, p.2))
      ∘ fun p : Nat × (ℚ × ℚ) => (Nat.digits 10 p.1, p.2)) = c.map id := by
    apply List.map_congr_left
    intro p _
    show (Nat.ofDigits 10 (Nat.digits 10 p.1), p.2) = p
    rw [Nat.ofDigits_digits]
  rw [hpt, List.map_id]
